import Mathlib

/-!
Shallow embedding of the chat/message core of the NodeJS-Chat-Application
repository (Express + Mongoose backend), and proofs about it.

Collections are modelled as lists: `Chat.find`/`findOne` become `List.filter`/
`List.find?`, `Chat.create` appends to the list, and `findByIdAndUpdate`
replaces the first document whose `_id` matches (Mongo `_id`s are unique, so
theorems that need uniqueness carry `Nodup` hypotheses on the id lists).
MongoDB ObjectIds are modelled as `String`s; the Joi request validation
(`/^[0-9a-fA-F]{24}$/`) is `isValidObjectId`.  Ids generated by the store for
`create` calls are passed in as explicit `newId` arguments.  Mongoose
`timestamps: true` updates `updatedAt` on every mutation, modelled by a `now`
argument on the mutating operations.
-/

namespace ChatApp

/-- An application error as thrown by the controllers
(`new AppError(message, statusCode)`, src/utils/AppError). -/
structure AppError where
  message : String
  statusCode : Nat
  deriving Repr, DecidableEq

/-- A `Chat` document (src/models/Chat.js).  `users` and `groupAdmins` are
arrays of user ObjectIds; `latestMessage` an optional message ObjectId;
`updatedAt` comes from `timestamps: true`. -/
structure Chat where
  id : String
  chatName : String
  isGroupChat : Bool
  groupIcon : String := "group-icon.png"
  latestMessage : Option String := none
  groupAdmins : List String := []
  users : List String := []
  updatedAt : Nat := 0
  deriving Repr, DecidableEq

/-- A `Message` document.  The Message model file itself is not part of the
sources; its fields are the ones the controllers read and write
(`content`, `chat`, `sender`, `readBy`).  Modelled from the spec: a message
is created with an empty `readBy` set (the schema declares `readBy` as an
ObjectId array, which Mongoose defaults to `[]`). -/
structure Message where
  id : String
  content : String
  chat : String
  sender : String
  readBy : List String := []
  createdAt : Nat := 0
  deriving Repr, DecidableEq

/-- The durable store: the `users`, `chats` and `messages` collections.
Only user ids matter for the chat core, so `users` is the list of
registered user ObjectIds. -/
structure DB where
  users : List String
  chats : List Chat
  messages : List Message
  deriving Repr, DecidableEq

/-- One character of a hexadecimal ObjectId. -/
def isHexChar (c : Char) : Bool :=
  ('0' ≤ c && c ≤ '9') || ('a' ≤ c && c ≤ 'f') || ('A' ≤ c && c ≤ 'F')

/-- The Joi id validation used by every controller:
`Joi.string().regex(/^[0-9a-fA-F]\x7b24\x7d$/)`. -/
def isValidObjectId (s : String) : Bool :=
  s.length == 24 && s.toList.all isHexChar

/-- Joi's `.trim()` convert rule on `chatName`
(`Joi.string().min(3).max(50).trim()`): strip leading and trailing
whitespace before the length rules are applied, modelled structurally over
the string's character list. -/
def trimString (s : String) : String :=
  ⟨((s.data.dropWhile Char.isWhitespace).reverse.dropWhile Char.isWhitespace).reverse⟩

/-- Joi's `.unique()` rule on an id array: no duplicate entries. -/
def distinctList : List String → Bool
  | [] => true
  | x :: xs => !(xs.contains x) && distinctList xs

/-- Mongoose `findByIdAndUpdate(id, update, loadnew)` on a list-modelled
collection: replace the first document whose key matches `i` by its update
`f`, returning the new collection and (per the `new: true` option) the
updated document, `none` when no document matched. -/
def updateFirstBy {α : Type} (key : α → String) (f : α → α) (i : String) :
    List α → List α × Option α
  | [] => ([], none)
  | a :: t =>
    if key a == i then (f a :: t, some (f a))
    else ((a :: (updateFirstBy key f i t).1), (updateFirstBy key f i t).2)

/-- Whether an `Except` result is a success. -/
def isOk {α : Type} : Except AppError α → Bool
  | .ok _ => true
  | .error _ => false

/-! ## Chat controller (src/controllers/chatController.js) -/

/-- The `Chat.find` query of `getOrCreateChat`: a non-group chat whose
`users` array contains both the requester and the target user. -/
def directPred (requester userId : String) (c : Chat) : Bool :=
  !c.isGroupChat && c.users.contains requester && c.users.contains userId

/-- The chat document `getOrCreateChat` creates when no direct chat between
the pair exists yet. -/
def newDirectChat (requester userId newId : String) (now : Nat) : Chat :=
  { id := newId, chatName := "sender", isGroupChat := false,
    users := [requester, userId], updatedAt := now }

/-- `getOrCreateChat` (POST /api/v1/chats, lines 22-93): validate the target
user id, require it registered and distinct from the requester, then return
the first existing non-group chat containing both users, or create a fresh
one with `users: [requester, userId]` and `chatName: "sender"`. -/
def getOrCreateChat (db : DB) (requester userId newId : String) (now : Nat) :
    Except AppError (DB × Option Chat) :=
  if !(isValidObjectId userId) then
    .error ⟨"User ID is Invalid!", 422⟩
  else if !(db.users.contains userId) then
    .error ⟨"UserId is not registered", 404⟩
  else if userId == requester then
    .error ⟨"Duplicate UserId. User Not able to create chat with itself", 400⟩
  else
    match db.chats.filter (directPred requester userId) with
    | c :: _ => .ok (db, some c)
    | [] =>
      let db2 : DB :=
        { db with chats := db.chats ++ [newDirectChat requester userId newId now] }
      .ok (db2, db2.chats.find? (fun c => c.id == newId))

/-- `createGroupChat` (POST /api/v1/chats/group, lines 238-300): Joi requires
`users` to be a non-empty array of distinct well-formed ids and `chatName` to
be 3-50 characters after trimming; the requester must not occur in `users`
and every listed id must be registered.  The created chat has
`groupAdmins: [requester]` and `users: [...value.users]` (the requester is
not added to `users`). -/
def createGroupChat (db : DB) (requester : String) (usersInput : List String)
    (chatName newId : String) (now : Nat) : Except AppError (DB × Option Chat) :=
  if !(usersInput.all isValidObjectId) then
    .error ⟨"Any User ID is Invalid!", 422⟩
  else if usersInput.length < 1 then
    .error ⟨"users must contain at least 1 items", 422⟩
  else if !(distinctList usersInput) then
    .error ⟨"users contains a duplicate value", 422⟩
  else if (trimString chatName).length < 3 then
    .error ⟨"chatName length must be at least 3 characters long", 422⟩
  else if 50 < (trimString chatName).length then
    .error ⟨"chatName length must be less than or equal to 50 characters long", 422⟩
  else if usersInput.contains requester then
    .error ⟨"Duplicate UserId. Current LoggedIn User Id present in users Array", 400⟩
  else if !(usersInput.all (fun u => db.users.contains u)) then
    .error ⟨"users[i] is not found on database", 404⟩
  else
    let groupChat : Chat :=
      { id := newId, chatName := trimString chatName, isGroupChat := true,
        groupAdmins := [requester], users := usersInput, updatedAt := now }
    let db2 : DB := { db with chats := db.chats ++ [groupChat] }
    .ok (db2, db2.chats.find? (fun c => c.id == newId))

/-- `updateGroupUsers` (PUT /api/v1/chats/group/users, lines 456-513): after
Joi validation of `chatId` and the new `users` array, require the chat to be
an existing group chat and the requester to be one of its `groupAdmins`, then
`$set` the chat's `users` to the given array verbatim.  No check that the
listed ids are registered users is performed. -/
def updateGroupUsers (db : DB) (requester chatId : String)
    (usersInput : List String) (now : Nat) : Except AppError (DB × Option Chat) :=
  if !(isValidObjectId chatId) then
    .error ⟨"Chat ID is Invalid!", 422⟩
  else if !(usersInput.all isValidObjectId) then
    .error ⟨"Any User ID is Invalid!", 422⟩
  else if usersInput.length < 1 then
    .error ⟨"users must contain at least 1 items", 422⟩
  else if !(distinctList usersInput) then
    .error ⟨"users contains a duplicate value", 422⟩
  else
    match db.chats.find? (fun c => c.id == chatId && c.isGroupChat) with
    | none => .error ⟨"chatId is not found on database", 404⟩
    | some checkChatId =>
      if !(checkChatId.groupAdmins.contains requester) then
        .error ⟨"Admin can only update the members of the Group!", 404⟩
      else
        let r := updateFirstBy Chat.id
          (fun c => { c with users := usersInput, updatedAt := now }) chatId db.chats
        .ok ({ db with chats := r.1 }, r.2)

/-- `updateAdminUsers` (PUT /api/v1/chats/group/admins, lines 527-584): same
validation and admin check as `updateGroupUsers`; the update statement at
line 564 is `$set: \x7b users: value.users \x7d` — it writes the `users` array,
not `groupAdmins`, so the admins set is never modified. -/
def updateAdminUsers (db : DB) (requester chatId : String)
    (usersInput : List String) (now : Nat) : Except AppError (DB × Option Chat) :=
  if !(isValidObjectId chatId) then
    .error ⟨"Chat ID is Invalid!", 422⟩
  else if !(usersInput.all isValidObjectId) then
    .error ⟨"Any User ID is Invalid!", 422⟩
  else if usersInput.length < 1 then
    .error ⟨"users must contain at least 1 items", 422⟩
  else if !(distinctList usersInput) then
    .error ⟨"users contains a duplicate value", 422⟩
  else
    match db.chats.find? (fun c => c.id == chatId && c.isGroupChat) with
    | none => .error ⟨"chatId is not found on database", 404⟩
    | some checkChatId =>
      if !(checkChatId.groupAdmins.contains requester) then
        .error ⟨"Admin can only update the members of the Group!", 404⟩
      else
        let r := updateFirstBy Chat.id
          (fun c => { c with users := usersInput, updatedAt := now }) chatId db.chats
        .ok ({ db with chats := r.1 }, r.2)

/-- `removeFromGroup` (PUT /api/v1/chats/group/remove-member, lines 598-672):
validate both ids, require the target user registered and the chat an
existing group chat; a non-admin may only remove themself; the sole admin
removing themself is rejected with a dedicated error; the target must
currently be in `users`; on success the target is `$pull`ed from `users`. -/
def removeFromGroup (db : DB) (requester chatId userId : String) (now : Nat) :
    Except AppError (DB × Option Chat) :=
  if !(isValidObjectId chatId) then
    .error ⟨"Chat ID is Invalid!", 422⟩
  else if !(isValidObjectId userId) then
    .error ⟨"User ID is Invalid!", 422⟩
  else if !(db.users.contains userId) then
    .error ⟨"userId is not found on database", 404⟩
  else
    match db.chats.find? (fun c => c.id == chatId && c.isGroupChat) with
    | none => .error ⟨"chatId is not found on database", 404⟩
    | some checkChatId =>
      let isLoggedInUserAdmin := checkChatId.groupAdmins.contains requester
      if !isLoggedInUserAdmin && !(userId == requester) then
        .error ⟨"Admin can only remove the member of the Group!", 400⟩
      else if isLoggedInUserAdmin && checkChatId.groupAdmins.length == 1 &&
          userId == requester then
        .error ⟨"Unable to leave the group. As the sole admin, you must first assign another user as an admin before leaving", 400⟩
      else
        match db.chats.find? (fun c =>
            c.id == chatId && c.isGroupChat && c.users.contains userId) with
        | none => .error ⟨"This User Already Added on this group", 404⟩
        | some _ =>
          let pull : Chat → Chat := fun c =>
            { c with users := c.users.filter (fun u => !(u == userId)), updatedAt := now }
          let r := updateFirstBy Chat.id pull chatId db.chats
          .ok ({ db with chats := r.1 }, r.2)

/-! ## Message controller (src/controllers/userController.js, message part) -/

/-- `getAllMessages` (GET /api/v1/messages, lines 174-219): validate the chat
id, require the requester to occur in the chat's `users` or `groupAdmins`
(an `$or` query), then return every message of that chat. -/
def getAllMessages (db : DB) (requester chatId : String) :
    Except AppError (List Message) :=
  if !(isValidObjectId chatId) then
    .error ⟨"Chat ID is Invalid!", 422⟩
  else
    match db.chats.find? (fun c => c.id == chatId &&
        (c.users.contains requester || c.groupAdmins.contains requester)) with
    | none => .error ⟨"This User is not attached with this chat", 400⟩
    | some _ => .ok (db.messages.filter (fun m => m.chat == chatId))

/-- `sendMessage` (POST /api/v1/messages, lines 235-282): validate the chat id
and require a non-empty message string (Joi `string().required()` rejects the
empty string); require the requester to occur in the chat's `users` array
(only `users` — admins who are not members cannot send); create the message
with the requester as sender, then point the chat's `latestMessage` at it. -/
def sendMessage (db : DB) (requester chatId content newId : String) (now : Nat) :
    Except AppError (DB × Option Message) :=
  if !(isValidObjectId chatId) then
    .error ⟨"Chat ID is Invalid!", 422⟩
  else if content == "" then
    .error ⟨"message is not allowed to be empty", 422⟩
  else
    match db.chats.find? (fun c => c.id == chatId && c.users.contains requester) with
    | none => .error ⟨"This User is not attached with this chat", 404⟩
    | some _ =>
      let createdMessage : Message :=
        { id := newId, content := content, chat := chatId, sender := requester,
          createdAt := now }
      let r := updateFirstBy Chat.id
        (fun c => { c with latestMessage := some newId, updatedAt := now }) chatId db.chats
      let db2 : DB := { db with messages := db.messages ++ [createdMessage], chats := r.1 }
      .ok (db2, db2.messages.find? (fun m => m.id == newId))

/-- `updateReadBy` (PUT /api/v1/messages/readby, lines 297-345): validate the
message id, then look the message up with the filter
`\x7b _id: messageId, $ne: \x7b sender: uid \x7d, readBy: \x7b $nin: [uid] \x7d \x7d`.
The `$ne` clause uses `$ne` as a top-level key, which is not a schema path;
since the app sets `mongoose.set("strictQuery", true)`
(src/startup/middlewares.js line 39), Mongoose silently strips that clause
from the filter, so the effective filter only requires that the requester has
not already read the message — there is no sender check.  The requester must
then occur in the owning chat's `users` array, and is `$push`ed onto
`readBy`. -/
def updateReadBy (db : DB) (requester messageId : String) :
    Except AppError (DB × Option Message) :=
  if !(isValidObjectId messageId) then
    .error ⟨"Message ID is Invalid!", 422⟩
  else
    match db.messages.find? (fun m => m.id == messageId &&
        !(m.readBy.contains requester)) with
    | none => .error ⟨"Invalid Message Id or Message update", 400⟩
    | some checkMessageExist =>
      match db.chats.find? (fun c => c.id == checkMessageExist.chat &&
          c.users.contains requester) with
      | none => .error ⟨"This User is not attached with this chat", 404⟩
      | some _ =>
        let r := updateFirstBy Message.id
          (fun m => { m with readBy := m.readBy ++ [requester] })
          checkMessageExist.id db.messages
        .ok ({ db with messages := r.1 }, r.2)

/-! ## getAllChats (src/controllers/chatController.js, lines 106-224) -/

/-- One element of the `getAllChats` aggregation output: the chat document
together with its computed `unReadCount` field. -/
structure ChatView where
  chat : Chat
  unReadCount : Nat
  deriving Repr, DecidableEq

/-- The `$lookup` pipeline of the aggregation: the messages of the chat whose
sender is not the requesting user and whose `readBy` does not contain them. -/
def chatUnreadMessages (msgs : List Message) (uid chatId : String) : List Message :=
  msgs.filter (fun m => m.chat == chatId && !(m.sender == uid) && !(m.readBy.contains uid))

/-- Insert a chat view into a list kept in descending `updatedAt` order. -/
def insertByUpdatedAtDesc (v : ChatView) : List ChatView → List ChatView
  | [] => [v]
  | w :: ws =>
    if w.chat.updatedAt ≤ v.chat.updatedAt then v :: w :: ws
    else w :: insertByUpdatedAtDesc v ws

/-- The aggregation's final `$sort: \x7b updatedAt: -1 \x7d` stage, as an
insertion sort by descending `updatedAt`. -/
def sortByUpdatedAtDesc : List ChatView → List ChatView
  | [] => []
  | v :: vs => insertByUpdatedAtDesc v (sortByUpdatedAtDesc vs)

/-- `getAllChats` (GET /api/v1/chats): match every chat in which the user
occurs in `users` or in `groupAdmins`, attach `unReadCount` (the size of
`chatUnreadMessages`), and sort by `updatedAt` descending. -/
def getAllChats (db : DB) (uid : String) : List ChatView :=
  sortByUpdatedAtDesc
    ((db.chats.filter (fun c => c.users.contains uid || c.groupAdmins.contains uid)).map
      (fun c => ⟨c, (chatUnreadMessages db.messages uid c.id).length⟩))

/-! ## Socket fan-out (src/startup/websockets.js) -/

/-- The `sendMessage` relay handler (lines 90-96): iterate the concatenation
`[...message.chat.users, ...message.chat.groupAdmins]` and emit
`receiveMessage` to each entry's UserId channel except the sender's.  The
result is the list of UserId channels the event is emitted to, in emission
order. -/
def socketSendMessageTargets (chatUsers chatGroupAdmins : List String)
    (senderId : String) : List String :=
  (chatUsers ++ chatGroupAdmins).filter (fun user => !(user == senderId))

/-! ## Spec-side definitions (for refinement-style comparison only) -/

/-- Stated from the spec's words (§4.1 `listChats`): "an `unreadCount`
computed as the count of messages in that chat whose `sender != userId` and
`userId ∉ readBy`". -/
def specUnreadCount (db : DB) (u chatId : String) : Nat :=
  (db.messages.filter (fun m => m.chat == chatId && !(m.sender == u) &&
    !(m.readBy.contains u))).length

/-- The number of non-group chats in the store containing both `a` and `b`
(spec §3: "At most one 1:1 chat exists per unordered pair of users"). -/
def directChatCount (db : DB) (a b : String) : Nat :=
  (db.chats.filter (directPred a b)).length

/-! ## Generic lemmas about the list-modelled store -/

/-- In a collection whose keys are `Nodup`, two members with the same key are
the same document. -/
theorem key_inj_of_nodup {α : Type} {key : α → String} {l : List α} {x y : α}
    (hnd : (l.map key).Nodup) (hx : x ∈ l) (hy : y ∈ l) (hk : key y = key x) :
    y = x :=
  List.inj_on_of_nodup_map hnd hy hx hk

/-- `findOne` with a predicate that pins down the key of `x` returns `x`
itself when the keys are `Nodup` and `x` is a matching member. -/
theorem find_eq_some_of_nodup {α : Type} {key : α → String} {l : List α} {x : α}
    {p : α → Bool} (hnd : (l.map key).Nodup) (hx : x ∈ l) (hpx : p x = true)
    (hkey : ∀ y, p y = true → key y = key x) :
    l.find? p = some x := by
  induction l with
  | nil => cases hx
  | cons a t ih =>
    rw [List.map_cons, List.nodup_cons] at hnd
    by_cases hpa : p a = true
    · have hka : key a = key x := hkey a hpa
      have hax : a = x := by
        rcases List.mem_cons.mp hx with h | h
        · exact h.symm
        · exfalso
          apply hnd.1
          rw [hka]
          exact List.mem_map.mpr ⟨x, h, rfl⟩
      rw [List.find?_cons_of_pos t hpa, hax]
    · have hxt : x ∈ t := by
        rcases List.mem_cons.mp hx with h | h
        · exact absurd (h ▸ hpx) hpa
        · exact h
      rw [List.find?_cons_of_neg t (by simpa using hpa)]
      exact ih hnd.2 hxt

/-- `findByIdAndUpdate` with `new: true` returns the update of `x` when the
keys are `Nodup` and `x` is the member carrying the requested key. -/
theorem updateFirstBy_snd {α : Type} {key : α → String} (f : α → α) {l : List α}
    {x : α} (hnd : (l.map key).Nodup) (hx : x ∈ l) :
    (updateFirstBy key f (key x) l).2 = some (f x) := by
  induction l with
  | nil => cases hx
  | cons a t ih =>
    rw [List.map_cons, List.nodup_cons] at hnd
    by_cases hka : key a = key x
    · have hax : a = x := by
        rcases List.mem_cons.mp hx with h | h
        · exact h.symm
        · exfalso
          apply hnd.1
          rw [hka]
          exact List.mem_map.mpr ⟨x, h, rfl⟩
      rw [updateFirstBy, if_pos (by simp [hka])]
      rw [hax]
    · have hxt : x ∈ t := by
        rcases List.mem_cons.mp hx with h | h
        · exact absurd (congrArg key h.symm) hka
        · exact h
      rw [updateFirstBy, if_neg (by simp [hka])]
      exact ih hnd.2 hxt

/-- Every document in the collection after a `findByIdAndUpdate` keyed on the
key of `x` is either the update of `x` or an untouched old document with a
different key. -/
theorem updateFirstBy_fst_mem {α : Type} {key : α → String} (f : α → α)
    {l : List α} {x : α} (hnd : (l.map key).Nodup) (hx : x ∈ l) :
    ∀ z ∈ (updateFirstBy key f (key x) l).1,
      z = f x ∨ (z ∈ l ∧ ¬ key z = key x) := by
  induction l with
  | nil => cases hx
  | cons a t ih =>
    rw [List.map_cons, List.nodup_cons] at hnd
    by_cases hka : key a = key x
    · have hax : a = x := by
        rcases List.mem_cons.mp hx with h | h
        · exact h.symm
        · exfalso
          apply hnd.1
          rw [hka]
          exact List.mem_map.mpr ⟨x, h, rfl⟩
      rw [updateFirstBy, if_pos (by simp [hka])]
      intro z hz
      rcases List.mem_cons.mp hz with h | h
      · exact Or.inl (by rw [h, hax])
      · refine Or.inr ⟨List.mem_cons_of_mem a h, ?_⟩
        intro hzx
        apply hnd.1
        rw [hka, ← hzx]
        exact List.mem_map.mpr ⟨z, h, rfl⟩
    · have hxt : x ∈ t := by
        rcases List.mem_cons.mp hx with h | h
        · exact absurd (congrArg key h.symm) hka
        · exact h
      rw [updateFirstBy, if_neg (by simp [hka])]
      intro z hz
      rcases List.mem_cons.mp hz with h | h
      · exact Or.inr ⟨List.mem_cons.mpr (Or.inl h), h ▸ hka⟩
      · rcases ih hnd.2 hxt z h with h2 | h2
        · exact Or.inl h2
        · exact Or.inr ⟨List.mem_cons_of_mem a h2.1, h2.2⟩

/-- A `findByIdAndUpdate` that turns the one matching document from
`p`-satisfying to non-`p`-satisfying drops `countP p` by exactly one. -/
theorem updateFirstBy_countP {α : Type} {key : α → String} {f : α → α}
    {l : List α} {x : α} {p : α → Bool} (hnd : (l.map key).Nodup) (hx : x ∈ l)
    (hpx : p x = true) (hpfx : p (f x) = false) :
    (updateFirstBy key f (key x) l).1.countP p + 1 = l.countP p := by
  induction l with
  | nil => cases hx
  | cons a t ih =>
    rw [List.map_cons, List.nodup_cons] at hnd
    by_cases hka : key a = key x
    · have hax : a = x := by
        rcases List.mem_cons.mp hx with h | h
        · exact h.symm
        · exfalso
          apply hnd.1
          rw [hka]
          exact List.mem_map.mpr ⟨x, h, rfl⟩
      rw [updateFirstBy, if_pos (by simp [hka]), hax]
      rw [List.countP_cons, List.countP_cons, hpx, if_pos rfl, hpfx]
      simp
    · have hxt : x ∈ t := by
        rcases List.mem_cons.mp hx with h | h
        · exact absurd (congrArg key h.symm) hka
        · exact h
      rw [updateFirstBy, if_neg (by simp [hka])]
      rw [List.countP_cons, List.countP_cons, ← ih hnd.2 hxt]
      omega

/-! ## Lemmas about the getAllChats sort -/

/-- The order produced by the `$sort: \x7b updatedAt: -1 \x7d` stage:
later entries have an `updatedAt` no greater than earlier ones. -/
def descOrder (a b : ChatView) : Prop :=
  b.chat.updatedAt ≤ a.chat.updatedAt

theorem mem_insertByUpdatedAtDesc {v z : ChatView} {l : List ChatView}
    (h : z ∈ insertByUpdatedAtDesc v l) : z = v ∨ z ∈ l := by
  induction l with
  | nil => simpa [insertByUpdatedAtDesc] using h
  | cons w ws ih =>
    rw [insertByUpdatedAtDesc] at h
    by_cases hc : w.chat.updatedAt ≤ v.chat.updatedAt
    · rw [if_pos hc] at h
      exact List.mem_cons.mp h
    · rw [if_neg hc] at h
      rcases List.mem_cons.mp h with h1 | h1
      · exact Or.inr (h1 ▸ List.mem_cons_self w ws)
      · rcases ih h1 with h2 | h2
        · exact Or.inl h2
        · exact Or.inr (List.mem_cons_of_mem w h2)

theorem mem_sortByUpdatedAtDesc {z : ChatView} {l : List ChatView}
    (h : z ∈ sortByUpdatedAtDesc l) : z ∈ l := by
  induction l with
  | nil => simp [sortByUpdatedAtDesc] at h
  | cons v vs ih =>
    rw [sortByUpdatedAtDesc] at h
    rcases mem_insertByUpdatedAtDesc h with h1 | h1
    · exact h1 ▸ List.mem_cons_self v vs
    · exact List.mem_cons_of_mem v (ih h1)

theorem pairwise_insertByUpdatedAtDesc {v : ChatView} {l : List ChatView}
    (h : l.Pairwise descOrder) :
    (insertByUpdatedAtDesc v l).Pairwise descOrder := by
  induction l with
  | nil => simp [insertByUpdatedAtDesc]
  | cons w ws ih =>
    rw [List.pairwise_cons] at h
    rw [insertByUpdatedAtDesc]
    by_cases hc : w.chat.updatedAt ≤ v.chat.updatedAt
    · rw [if_pos hc]
      refine List.Pairwise.cons ?_ (List.Pairwise.cons h.1 h.2)
      intro z hz
      rcases List.mem_cons.mp hz with h1 | h1
      · rw [h1]
        exact hc
      · exact le_trans (h.1 z h1) hc
    · rw [if_neg hc]
      refine List.Pairwise.cons ?_ (ih h.2)
      intro z hz
      rcases mem_insertByUpdatedAtDesc hz with h1 | h1
      · rw [h1]
        exact Nat.le_of_lt (Nat.lt_of_not_le hc)
      · exact h.1 z h1

theorem pairwise_sortByUpdatedAtDesc (l : List ChatView) :
    (sortByUpdatedAtDesc l).Pairwise descOrder := by
  induction l with
  | nil => simp [sortByUpdatedAtDesc]
  | cons v vs ih => exact pairwise_insertByUpdatedAtDesc ih

/-! ## Concrete ObjectIds used by the concrete-input theorems -/

def uidA : String := "aaaaaaaaaaaaaaaaaaaaaaaa"

def uidB : String := "bbbbbbbbbbbbbbbbbbbbbbbb"

def uidC : String := "cccccccccccccccccccccccc"

def uidD : String := "dddddddddddddddddddddddd"

def cid1 : String := "eeeeeeeeeeeeeeeeeeeeeeee"

def cid2 : String := "ffffffffffffffffffffffff"

def mid1 : String := "012345678901234567890123"

def mid2 : String := "112345678901234567890123"

/-! ## C1: replaceAdmins (PUT /chats/group/admins, updateAdminUsers) -/

/-- Store for the C1 run: `uidA` is the sole admin of group chat `cid1`,
whose members are `[uidB]`; `uidC` is a registered user. -/
def c1db : DB :=
  { users := [uidA, uidB, uidC],
    chats := [{ id := cid1, chatName := "Team", isGroupChat := true,
                groupAdmins := [uidA], users := [uidB] }],
    messages := [] }

/-- The chat document after the C1 call. -/
def c1chatAfter : Chat :=
  { id := cid1, chatName := "Team", isGroupChat := true,
    groupAdmins := [uidA], users := [uidC], updatedAt := 5 }

/-- C1: calling `updateAdminUsers` (PUT /chats/group/admins) as the current
admin `uidA` with the well-formed, non-empty, distinct list `[uidC]` succeeds
but overwrites the chat's `users` array with `[uidC]` and leaves
`groupAdmins` at `[uidA]`: the update statement writes `users`, not
`groupAdmins`, so the claimed overwrite of the admins set never happens and
the members set is clobbered instead. -/
theorem updateAdminUsers_writes_users_not_groupAdmins :
    updateAdminUsers c1db uidA cid1 [uidC] 5 =
      .ok ({ c1db with chats := [c1chatAfter] }, some c1chatAfter) ∧
    c1chatAfter.groupAdmins = [uidA] ∧ c1chatAfter.users = [uidC] :=
  ⟨rfl, rfl, rfl⟩

/-! ## C2: sole admin cannot remove themself -/

/-- C2: for every group chat whose `groupAdmins` is exactly `[r]`, the call in
which `r` requests their own removal (PUT /chats/group/remove-member) is
rejected with the dedicated sole-admin error; the error is thrown before any
update, so the chat's `users` and `groupAdmins` are unchanged. -/
theorem removeFromGroup_sole_admin_rejected
    (db : DB) (c : Chat) (r : String) (now : Nat)
    (hmem : c ∈ db.chats) (hnd : (db.chats.map Chat.id).Nodup)
    (hg : c.isGroupChat = true) (hadm : c.groupAdmins = [r])
    (hvc : isValidObjectId c.id = true) (hvr : isValidObjectId r = true)
    (hu : db.users.contains r = true) :
    removeFromGroup db r c.id r now =
      .error ⟨"Unable to leave the group. As the sole admin, you must first assign another user as an admin before leaving", 400⟩ := by
  have hfind : db.chats.find? (fun x => x.id == c.id && x.isGroupChat) = some c := by
    apply find_eq_some_of_nodup hnd hmem
    · simp [hg]
    · intro y hy
      rw [Bool.and_eq_true] at hy
      exact (beq_iff_eq.mp hy.1 :)
  have hu2 : r ∈ db.users := by simpa using hu
  simp [removeFromGroup, hvc, hvr, hu2, hfind, hadm]

/-- The C2 store: `uidA` is the sole admin of the group chat `cid1`. -/
def c2chat : Chat :=
  { id := cid1, chatName := "Team", isGroupChat := true,
    groupAdmins := [uidA], users := [uidA, uidB] }

def c2db : DB :=
  { users := [uidA, uidB], chats := [c2chat], messages := [] }

/-- Witness for C2 at a concrete store: the sole admin `uidA` asking to
remove themself is answered with the dedicated 400 error. -/
theorem removeFromGroup_sole_admin_rejected_witness :
    removeFromGroup c2db uidA cid1 uidA 7 =
      .error ⟨"Unable to leave the group. As the sole admin, you must first assign another user as an admin before leaving", 400⟩ := by
  have h := removeFromGroup_sole_admin_rejected c2db c2chat uidA 7
    (by decide) (by decide) (by decide) (by decide) (by decide) (by decide) (by decide)
  exact h

/-! ## C3: a sender can mark their own message as read -/

/-- The C3 store: a 1:1 chat between `uidA` and `uidB`, with one message
sent by `uidA` that nobody has read yet. -/
def c3db : DB :=
  { users := [uidA, uidB],
    chats := [{ id := cid1, chatName := "sender", isGroupChat := false,
                users := [uidA, uidB] }],
    messages := [{ id := mid1, content := "hello", chat := cid1, sender := uidA }] }

/-- The message after the C3 call: the sender appears in its own `readBy`. -/
def c3msgAfter : Message :=
  { id := mid1, content := "hello", chat := cid1, sender := uidA, readBy := [uidA] }

/-- C3: `updateReadBy` does not reject the message's own sender.  The lookup
filter spells the sender check as `$ne: \x7b sender: uid \x7d` — `$ne` as a
top-level key, which `strictQuery: true` silently strips — so the sender
`uidA`'s markRead call on their own message succeeds and appends `uidA` to
`readBy`, producing a reachable state with `m.sender ∈ m.readBy`. -/
theorem updateReadBy_lets_sender_read_own_message :
    updateReadBy c3db uidA mid1 =
      .ok ({ c3db with messages := [c3msgAfter] }, some c3msgAfter) ∧
    c3msgAfter.sender = uidA ∧ c3msgAfter.readBy = [uidA] :=
  ⟨rfl, rfl, rfl⟩

/-! ## C4: markRead succeeds once, then is rejected -/

/-- C4: for a member `u` of the owning chat who is not the sender and has not
yet read message `m`, the first `updateReadBy` call succeeds and appends `u`
to `readBy`; the immediately following second call is rejected with the 400
`InvalidOperation` error before any update, so `readBy` is unchanged. -/
theorem updateReadBy_once_then_rejected
    (db : DB) (c : Chat) (m : Message) (u : String)
    (hm : m ∈ db.messages) (hmnd : (db.messages.map Message.id).Nodup)
    (hc : c ∈ db.chats) (hchat : m.chat = c.id)
    (humem : c.users.contains u = true)
    (_hus : ¬ u = m.sender)
    (hur : m.readBy.contains u = false)
    (hv : isValidObjectId m.id = true) :
    ∃ db2, updateReadBy db u m.id =
        .ok (db2, some { m with readBy := m.readBy ++ [u] }) ∧
      updateReadBy db2 u m.id =
        .error ⟨"Invalid Message Id or Message update", 400⟩ := by
  have hur2 : u ∉ m.readBy := by simpa using hur
  have humem2 : u ∈ c.users := by simpa using humem
  have hfind1 : db.messages.find?
      (fun x => x.id == m.id && !(x.readBy.contains u)) = some m := by
    apply find_eq_some_of_nodup hmnd hm
    · simp [hur2]
    · intro y hy
      rw [Bool.and_eq_true] at hy
      exact (beq_iff_eq.mp hy.1 :)
  have hcfind : (db.chats.find?
      (fun x => x.id == m.chat && x.users.contains u)).isSome := by
    rw [List.find?_isSome]
    exact ⟨c, hc, by simp [hchat, humem2]⟩
  obtain ⟨cc, hcc⟩ := Option.isSome_iff_exists.mp hcfind
  let upd : Message → Message := fun x => { x with readBy := x.readBy ++ [u] }
  have hsnd : (updateFirstBy Message.id upd m.id db.messages).2 =
      some (upd m) := updateFirstBy_snd upd hmnd hm
  refine ⟨{ db with messages := (updateFirstBy Message.id upd m.id db.messages).1 },
    ?_, ?_⟩
  · simp only [updateReadBy, hv, Bool.not_true, Bool.false_eq_true, if_false,
      hfind1, hcc, hsnd]
  · have hnone : ((updateFirstBy Message.id upd m.id db.messages).1).find?
        (fun x => x.id == m.id && !(x.readBy.contains u)) = none := by
      rw [List.find?_eq_none]
      intro z hz
      rcases updateFirstBy_fst_mem upd hmnd hm z hz with h1 | h1
      · simp [h1, upd]
      · simp [h1.2]
    simp only [updateReadBy, hv, Bool.not_true, Bool.false_eq_true, if_false, hnone]

/-- The C4 store: a 1:1 chat between `uidA` and `uidB`, with one unread
message sent by `uidB`. -/
def c4chat : Chat :=
  { id := cid1, chatName := "sender", isGroupChat := false, users := [uidA, uidB] }

def c4msg : Message :=
  { id := mid1, content := "hello", chat := cid1, sender := uidB }

def c4db : DB :=
  { users := [uidA, uidB], chats := [c4chat], messages := [c4msg] }

/-- Witness for C4 at a concrete store: `uidA` reads `uidB`'s message once
successfully; the second identical call is rejected with the 400 error. -/
theorem updateReadBy_once_then_rejected_witness :
    ∃ db2, updateReadBy c4db uidA mid1 =
        .ok (db2, some { c4msg with readBy := c4msg.readBy ++ [uidA] }) ∧
      updateReadBy db2 uidA mid1 =
        .error ⟨"Invalid Message Id or Message update", 400⟩ := by
  have h := updateReadBy_once_then_rejected c4db c4chat c4msg uidA
    (by decide) (by decide) (by decide) (by decide) (by decide) (by decide)
    (by decide) (by decide)
  exact h

/-! ## C5: get-or-create direct chat is an idempotent lookup -/

/-- Characterization of every successful `getOrCreateChat` call: either some
direct chat for the pair already existed, the store is untouched and the
first such chat is returned; or none existed and exactly the new chat is
appended. -/
theorem getOrCreateChat_ok_cases (db db2 : DB) (r u n : String) (t : Nat)
    (res : Option Chat)
    (h : getOrCreateChat db r u n t = .ok (db2, res)) :
    (∃ c rest, db.chats.filter (directPred r u) = c :: rest ∧
      db2 = db ∧ res = some c)
    ∨ (db.chats.filter (directPred r u) = [] ∧
      db2.chats = db.chats ++ [newDirectChat r u n t] ∧
      db2.users = db.users ∧ db2.messages = db.messages ∧
      res = db2.chats.find? (fun c => c.id == n)) := by
  rw [getOrCreateChat] at h
  split at h
  · exact absurd h (by simp)
  · split at h
    · exact absurd h (by simp)
    · split at h
      · exact absurd h (by simp)
      · cases hfil : db.chats.filter (directPred r u) with
        | cons c rest =>
          rw [hfil] at h
          simp only [Except.ok.injEq, Prod.mk.injEq] at h
          exact Or.inl ⟨c, rest, rfl, h.1.symm, h.2.symm⟩
        | nil =>
          rw [hfil] at h
          simp only [Except.ok.injEq, Prod.mk.injEq] at h
          refine Or.inr ⟨rfl, ?_, ?_, ?_, ?_⟩
          · rw [← h.1]
          · rw [← h.1]
          · rw [← h.1]
          · rw [← h.2, ← h.1]

/-- C5: for a fixed unordered pair of distinct users, two sequential
get-or-create calls (the second in either argument order) return chats with
the same id and the second call never changes the store; and every
successful get-or-create call (for any arguments) preserves the invariant
that at most one non-group chat containing both users of the pair exists. -/
theorem getOrCreateChat_idempotent_and_pair_unique (a b : String)
    (hab : ¬ a = b) :
    (∀ db db1 db2 c1 c2 r2 u2 n1 t1 n2 t2,
        ((r2 = a ∧ u2 = b) ∨ (r2 = b ∧ u2 = a)) →
        getOrCreateChat db a b n1 t1 = .ok (db1, some c1) →
        getOrCreateChat db1 r2 u2 n2 t2 = .ok (db2, some c2) →
        c2.id = c1.id ∧ db2 = db1)
    ∧ (∀ db db2 r u n t res,
        getOrCreateChat db r u n t = .ok (db2, res) →
        directChatCount db a b ≤ 1 → directChatCount db2 a b ≤ 1) := by
  constructor
  · intro db db1 db2 c1 c2 r2 u2 n1 t1 n2 t2 hsym h1 h2
    have hpred : ∀ c, directPred r2 u2 c = directPred a b c := by
      intro c
      rcases hsym with ⟨hr, hu⟩ | ⟨hr, hu⟩
      · rw [hr, hu]
      · rw [hr, hu]
        simp only [directPred]
        rw [Bool.and_assoc, Bool.and_assoc, Bool.and_comm (c.users.contains b)]
    have hfc : ∀ (l : List Chat), l.filter (directPred r2 u2) =
        l.filter (directPred a b) :=
      fun l => List.filter_congr (fun c _ => hpred c)
    rcases getOrCreateChat_ok_cases db db1 a b n1 t1 (some c1) h1 with
      ⟨c, rest, hfil, hdb, hres⟩ | ⟨hfil, hchats, _, _, hres⟩
    · -- a direct chat already existed: both calls return the first match
      rcases getOrCreateChat_ok_cases db1 db2 r2 u2 n2 t2 (some c2) h2 with
        ⟨c', rest', hfil', hdb', hres'⟩ | ⟨hfil', _, _, _, _⟩
      · rw [hdb, hfc, hfil] at hfil'
        rw [Option.some_inj] at hres hres'
        rw [hres, hres', ← (List.cons.injEq ..).mp hfil'.symm |>.1, hdb']
        exact ⟨rfl, rfl⟩
      · rw [hdb, hfc, hfil] at hfil'
        exact absurd hfil' (by simp)
    · -- the first call created the chat; the second finds it
      have hid1 : c1.id = n1 := by
        have hsome := hres.symm
        have := List.find?_some hsome
        exact beq_iff_eq.mp this
      have hnew : directPred a b (newDirectChat a b n1 t1) = true := by
        simp [directPred, newDirectChat]
      rcases getOrCreateChat_ok_cases db1 db2 r2 u2 n2 t2 (some c2) h2 with
        ⟨c', rest', hfil', hdb', hres'⟩ | ⟨hfil', _, _, _, _⟩
      · rw [hfc, hchats, List.filter_append, hfil] at hfil'
        simp only [List.nil_append, List.filter_cons, hnew, if_pos] at hfil'
        rw [Option.some_inj] at hres'
        have hc2 : c2 = newDirectChat a b n1 t1 := by
          rw [hres', ← (List.cons.injEq ..).mp hfil'.symm |>.1]
        rw [hc2, hdb']
        exact ⟨hid1.symm, rfl⟩
      · rw [hfc, hchats, List.filter_append, hfil] at hfil'
        simp [hnew] at hfil'
  · intro db db2 r u n t res h hle
    rcases getOrCreateChat_ok_cases db db2 r u n t res h with
      ⟨c, rest, hfil, hdb, hres⟩ | ⟨hfil, hchats, _, _, hres⟩
    · rw [hdb]
      exact hle
    · unfold directChatCount at hle ⊢
      rw [hchats, List.filter_append]
      by_cases hnew : directPred a b (newDirectChat r u n t) = true
      · -- the new chat contains both a and b, so the pair is (r,u) up to order
        have hpair : (r = a ∧ u = b) ∨ (r = b ∧ u = a) := by
          have hmem : a ∈ [r, u] ∧ b ∈ [r, u] := by
            simp only [directPred, newDirectChat, Bool.and_eq_true] at hnew
            constructor
            · simpa using hnew.1.2
            · simpa using hnew.2
          rcases hmem with ⟨hma, hmb⟩
          simp at hma hmb
          rcases hma with ha | ha
          · rcases hmb with hb | hb
            · exact absurd (ha ▸ hb ▸ rfl : a = b) hab
            · exact Or.inl ⟨ha.symm, hb.symm⟩
          · rcases hmb with hb | hb
            · exact Or.inr ⟨hb.symm, ha.symm⟩
            · exact absurd (ha ▸ hb ▸ rfl : a = b) hab
        have hzero : db.chats.filter (directPred a b) = [] := by
          have hpred : ∀ c, directPred r u c = directPred a b c := by
            intro c
            rcases hpair with ⟨hr, hu⟩ | ⟨hr, hu⟩
            · rw [hr, hu]
            · rw [hr, hu]
              simp only [directPred]
              rw [Bool.and_assoc, Bool.and_assoc, Bool.and_comm (c.users.contains a)]
          rw [← List.filter_congr (fun c _ => hpred c), hfil]
        rw [hzero]
        simp [hnew]
      · rw [List.filter_cons]
        simp only [hnew]
        simpa using hle

/-- Witness for C5 at the concrete pair `(uidA, uidB)`: the hypothesis
`uidA ≠ uidB` is discharged by evaluation and the theorem is applied. -/
theorem getOrCreateChat_idempotent_witness :
    (¬ uidA = uidB) ∧
    ((∀ db db1 db2 c1 c2 r2 u2 n1 t1 n2 t2,
        ((r2 = uidA ∧ u2 = uidB) ∨ (r2 = uidB ∧ u2 = uidA)) →
        getOrCreateChat db uidA uidB n1 t1 = .ok (db1, some c1) →
        getOrCreateChat db1 r2 u2 n2 t2 = .ok (db2, some c2) →
        c2.id = c1.id ∧ db2 = db1)
    ∧ (∀ db db2 r u n t res,
        getOrCreateChat db r u n t = .ok (db2, res) →
        directChatCount db uidA uidB ≤ 1 → directChatCount db2 uidA uidB ≤ 1)) :=
  ⟨by decide, getOrCreateChat_idempotent_and_pair_unique uidA uidB (by decide)⟩

/-! ## C6: unread counts are exact, sorted, and move by exactly one -/

/-- A successful `sendMessage` call appends exactly the one new message and
leaves the users collection alone. -/
theorem sendMessage_ok_messages (db db1 : DB) (r cid content n : String)
    (t : Nat) (res : Option Message)
    (h : sendMessage db r cid content n t = .ok (db1, res)) :
    db1.messages = db.messages ++
      [{ id := n, content := content, chat := cid, sender := r,
         readBy := [], createdAt := t }] ∧
    db1.users = db.users := by
  rw [sendMessage] at h
  split at h
  · exact absurd h (by simp)
  · split at h
    · exact absurd h (by simp)
    · split at h
      · exact absurd h (by simp)
      · simp only [Except.ok.injEq, Prod.mk.injEq] at h
        rw [← h.1]
        exact ⟨rfl, rfl⟩

/-- A successful `updateReadBy` call updates the store by pushing the reader
onto the `readBy` of the message its lookup found. -/
theorem updateReadBy_ok_messages (db db1 : DB) (u mid : String)
    (res : Option Message) (mfound : Message)
    (hfind : db.messages.find?
      (fun x => x.id == mid && !(x.readBy.contains u)) = some mfound)
    (h : updateReadBy db u mid = .ok (db1, res)) :
    db1.messages = (updateFirstBy Message.id
      (fun m => { m with readBy := m.readBy ++ [u] }) mfound.id db.messages).1 := by
  rw [updateReadBy] at h
  split at h
  · exact absurd h (by simp)
  · split at h
    · exact absurd h (by simp)
    · rename_i mfound2 heq2
      split at h
      · exact absurd h (by simp)
      · simp only [Except.ok.injEq, Prod.mk.injEq] at h
        have hmm : mfound2 = mfound := by
          rw [hfind] at heq2
          exact (Option.some.inj heq2).symm
        rw [← h.1, hmm]

/-- C6: every chat returned by `getAllChats u` carries an `unReadCount` equal
to the exact number of stored messages of that chat whose sender is not `u`
and whose `readBy` does not contain `u`; the returned sequence is sorted by
`updatedAt` descending; a message sent by another member `v` raises that
chat's count by exactly one, and one subsequent markRead by `u` on the new
message lowers it back by exactly one. -/
theorem getAllChats_unread_exact_sorted_incr_decr
    (db db1 db2 : DB) (u v content n1 : String) (c : Chat) (t1 : Nat)
    (res1 res2 : Option Message)
    (hvu : ¬ v = u)
    (hnd : (db.messages.map Message.id).Nodup)
    (hfresh : ∀ m ∈ db.messages, ¬ m.id = n1)
    (hsend : sendMessage db v c.id content n1 t1 = .ok (db1, res1))
    (hread : updateReadBy db1 u n1 = .ok (db2, res2)) :
    (∀ w ∈ getAllChats db u, w.unReadCount = specUnreadCount db u w.chat.id)
    ∧ (getAllChats db u).Pairwise descOrder
    ∧ specUnreadCount db1 u c.id = specUnreadCount db u c.id + 1
    ∧ specUnreadCount db2 u c.id = specUnreadCount db u c.id := by
  have hmsgs1 := (sendMessage_ok_messages db db1 v c.id content n1 t1 res1 hsend).1
  set newMsg : Message :=
    { id := n1, content := content, chat := c.id, sender := v,
      readBy := [], createdAt := t1 } with hnewMsg
  have hpnew : (newMsg.chat == c.id && !(newMsg.sender == u) &&
      !(newMsg.readBy.contains u)) = true := by
    simp [hnewMsg, hvu]
  have hinc : specUnreadCount db1 u c.id = specUnreadCount db u c.id + 1 := by
    simp only [specUnreadCount]
    rw [hmsgs1, List.filter_append]
    simp [hnewMsg, hvu]
  refine ⟨?_, ?_, hinc, ?_⟩
  · intro w hw
    have hw2 := mem_sortByUpdatedAtDesc hw
    obtain ⟨cc, _, hcc⟩ := List.mem_map.mp hw2
    rw [← hcc]
    rfl
  · exact pairwise_sortByUpdatedAtDesc _
  · -- the markRead lookup finds exactly the freshly sent message
    have hfind : db1.messages.find?
        (fun x => x.id == n1 && !(x.readBy.contains u)) = some newMsg := by
      rw [hmsgs1, List.find?_append]
      have hnopre : db.messages.find?
          (fun x => x.id == n1 && !(x.readBy.contains u)) = none := by
        rw [List.find?_eq_none]
        intro z hz
        simp [hfresh z hz]
      rw [hnopre]
      simp [hnewMsg]
    have hmsgs2 := updateReadBy_ok_messages db1 db2 u n1 res2 newMsg hfind hread
    have hnd1 : (db1.messages.map Message.id).Nodup := by
      rw [hmsgs1, List.map_append, List.nodup_append]
      refine ⟨hnd, by simp, ?_⟩
      intro x hx1 hx2
      obtain ⟨m, hm, hmx⟩ := List.mem_map.mp hx1
      simp only [List.map_cons, List.map_nil, List.mem_singleton] at hx2
      exact hfresh m hm (by rw [hmx, hx2])
    have hmemnew : newMsg ∈ db1.messages := by
      rw [hmsgs1]
      exact List.mem_append_right _ (List.mem_singleton.mpr rfl)
    have hcount := @updateFirstBy_countP Message Message.id
      (fun m => { m with readBy := m.readBy ++ [u] }) db1.messages newMsg
      (fun m => m.chat == c.id && !(m.sender == u) && !(m.readBy.contains u))
      hnd1 hmemnew hpnew (by simp [hnewMsg])
    simp only [specUnreadCount, ← List.countP_eq_length_filter] at hinc ⊢
    rw [hmsgs2]
    omega

/-- The C6 witness store: a 1:1 chat between `uidA` and `uidB`, no messages
yet. -/
def c6chat : Chat :=
  { id := cid1, chatName := "sender", isGroupChat := false, users := [uidA, uidB] }

def c6db : DB :=
  { users := [uidA, uidB], chats := [c6chat], messages := [] }

/-- The message `uidB` sends in the C6 witness run. -/
def c6msg : Message :=
  { id := mid1, content := "hi", chat := cid1, sender := uidB, createdAt := 1 }

/-- The C6 witness store after the send. -/
def c6db1 : DB :=
  { users := [uidA, uidB],
    chats := [{ c6chat with latestMessage := some mid1, updatedAt := 1 }],
    messages := [c6msg] }

/-- The C6 witness store after `uidA` marks the new message read. -/
def c6db2 : DB :=
  { c6db1 with messages := [{ c6msg with readBy := [uidA] }] }

/-- Witness for C6 at the concrete run: `uidB` sends one message into the
empty chat and `uidA` then marks it read; all hypotheses are discharged by
evaluation. -/
theorem getAllChats_unread_witness :
    (∀ w ∈ getAllChats c6db uidA, w.unReadCount = specUnreadCount c6db uidA w.chat.id)
    ∧ (getAllChats c6db uidA).Pairwise descOrder
    ∧ specUnreadCount c6db1 uidA c6chat.id = specUnreadCount c6db uidA c6chat.id + 1
    ∧ specUnreadCount c6db2 uidA c6chat.id = specUnreadCount c6db uidA c6chat.id :=
  getAllChats_unread_exact_sorted_incr_decr c6db c6db1 c6db2 uidA uidB "hi" mid1
    c6chat 1 (some c6msg) (some { c6msg with readBy := [uidA] })
    (by decide) (by decide) (by decide) rfl rfl

/-! ## C7: createGroupChat validation and the requester's membership -/

def c7db : DB := { users := [uidA, uidB], chats := [], messages := [] }

/-- The chat created in the C7 counterexample run. -/
def c7chat : Chat :=
  { id := cid1, chatName := "Team Chat", isGroupChat := true,
    groupAdmins := [uidA], users := [uidB], updatedAt := 3 }

/-- C7 counterexample: a successful `createGroupChat` by requester `uidA`
with members `[uidB]` produces a chat whose `users` array is `[uidB]`
verbatim — the requester is placed in `groupAdmins` only and is not a member
of the created chat's `users` array. -/
theorem createGroupChat_requester_not_in_users :
    createGroupChat c7db uidA [uidB] "Team Chat" cid1 3 =
      .ok ({ c7db with chats := [c7chat] }, some c7chat) ∧
    c7chat.users.contains uidA = false ∧
    c7chat.isGroupChat = true ∧ c7chat.groupAdmins = [uidA] :=
  ⟨rfl, rfl, rfl, rfl⟩

/-- C7 (amended): `createGroupChat` fails when `memberIds` is empty, has
duplicates, has a malformed id, has an unregistered id, contains the
requester, or when the trimmed name is shorter than 3 or longer than 50
characters; on success the created chat is exactly the group chat with
`groupAdmins = [requester]` and `users = memberIds` verbatim — the requester
is the sole initial admin but is not added to the `users` array. -/
theorem createGroupChat_checks_and_result
    (db : DB) (r name nid : String) (usersInput : List String) (t : Nat)
    (hfresh : ∀ c ∈ db.chats, ¬ c.id = nid) :
    (usersInput = [] →
      isOk (createGroupChat db r usersInput name nid t) = false)
    ∧ (distinctList usersInput = false →
      isOk (createGroupChat db r usersInput name nid t) = false)
    ∧ (usersInput.all isValidObjectId = false →
      isOk (createGroupChat db r usersInput name nid t) = false)
    ∧ ((∃ x ∈ usersInput, ¬ x ∈ db.users) →
      isOk (createGroupChat db r usersInput name nid t) = false)
    ∧ (usersInput.contains r = true →
      isOk (createGroupChat db r usersInput name nid t) = false)
    ∧ ((trimString name).length < 3 ∨ 50 < (trimString name).length →
      isOk (createGroupChat db r usersInput name nid t) = false)
    ∧ (∀ db2 res, createGroupChat db r usersInput name nid t = .ok (db2, res) →
      res = some { id := nid, chatName := trimString name, isGroupChat := true,
                   groupAdmins := [r], users := usersInput, updatedAt := t } ∧
      usersInput.contains r = false) := by
  refine ⟨?_, ?_, ?_, ?_, ?_, ?_, ?_⟩
  · intro h
    subst h
    simp [createGroupChat, isOk]
  · intro h
    simp only [createGroupChat]
    split
    · rfl
    · split
      · rfl
      · simp [h, isOk]
  · intro h
    simp only [createGroupChat]
    split
    · rfl
    · rename_i hv
      rw [h] at hv
      simp at hv
  · intro h
    simp only [createGroupChat]
    split
    · rfl
    · split
      · rfl
      · split
        · rfl
        · split
          · rfl
          · split
            · rfl
            · split
              · rfl
              · simp [isOk, h]
  · intro h
    simp only [createGroupChat]
    split
    · rfl
    · split
      · rfl
      · split
        · rfl
        · split
          · rfl
          · split
            · rfl
            · simp [h, isOk]
  · intro h
    simp only [createGroupChat]
    split
    · rfl
    · split
      · rfl
      · split
        · rfl
        · split
          · rfl
          · rename_i h3
            split
            · rfl
            · rename_i h5
              exfalso
              rcases h with hlt | hgt
              · exact h3 hlt
              · exact h5 hgt
  · intro db2 res h
    rw [createGroupChat] at h
    split at h
    · exact absurd h (by simp)
    · split at h
      · exact absurd h (by simp)
      · split at h
        · exact absurd h (by simp)
        · split at h
          · exact absurd h (by simp)
          · split at h
            · exact absurd h (by simp)
            · split at h
              · exact absurd h (by simp)
              · split at h
                · exact absurd h (by simp)
                · rename_i hcontr hexist
                  simp only [Except.ok.injEq, Prod.mk.injEq] at h
                  constructor
                  · rw [← h.2]
                    rw [List.find?_append]
                    have hpre : db.chats.find? (fun c => c.id == nid) = none := by
                      rw [List.find?_eq_none]
                      intro z hz
                      simp [hfresh z hz]
                    rw [hpre]
                    simp
                  · simpa using hcontr

/-- Witness for C7 at the concrete store `c7db` (whose chat list is empty, so
the freshness hypothesis holds by evaluation). -/
theorem createGroupChat_checks_witness :
    ((["z"] : List String) = [] →
      isOk (createGroupChat c7db uidA ["z"] "Team Chat" cid1 3) = false)
    ∧ (distinctList ["z"] = false →
      isOk (createGroupChat c7db uidA ["z"] "Team Chat" cid1 3) = false)
    ∧ (["z"].all isValidObjectId = false →
      isOk (createGroupChat c7db uidA ["z"] "Team Chat" cid1 3) = false)
    ∧ ((∃ x ∈ ["z"], ¬ x ∈ c7db.users) →
      isOk (createGroupChat c7db uidA ["z"] "Team Chat" cid1 3) = false)
    ∧ (["z"].contains uidA = true →
      isOk (createGroupChat c7db uidA ["z"] "Team Chat" cid1 3) = false)
    ∧ ((trimString "Team Chat").length < 3 ∨ 50 < (trimString "Team Chat").length →
      isOk (createGroupChat c7db uidA ["z"] "Team Chat" cid1 3) = false)
    ∧ (∀ db2 res, createGroupChat c7db uidA ["z"] "Team Chat" cid1 3 = .ok (db2, res) →
      res = some { id := cid1, chatName := trimString "Team Chat", isGroupChat := true,
                   groupAdmins := [uidA], users := ["z"], updatedAt := 3 } ∧
      (["z"] : List String).contains uidA = false) :=
  createGroupChat_checks_and_result c7db uidA "Team Chat" cid1 ["z"] 3 (by decide)

/-! ## C8: an admin who is not in users can list but not send or mark read -/

/-- C8: for a chat in which `u` occurs in `groupAdmins` but not in `users`,
`getAllMessages` succeeds (its membership check accepts member-or-admin via
`$or`), while `sendMessage` and `updateReadBy` both fail, because their
membership checks query the `users` array only. -/
theorem admin_not_in_users_can_list_not_send
    (db : DB) (c : Chat) (u : String)
    (hc : c ∈ db.chats) (hcnd : (db.chats.map Chat.id).Nodup)
    (hmnd : (db.messages.map Message.id).Nodup)
    (hadm : c.groupAdmins.contains u = true)
    (hnuser : c.users.contains u = false)
    (hv : isValidObjectId c.id = true) :
    isOk (getAllMessages db u c.id) = true
    ∧ (∀ content nid t, isOk (sendMessage db u c.id content nid t) = false)
    ∧ (∀ m ∈ db.messages, m.chat = c.id → isOk (updateReadBy db u m.id) = false) := by
  have hadm2 : u ∈ c.groupAdmins := by simpa using hadm
  have hnuser2 : u ∉ c.users := by simpa using hnuser
  have hnone : db.chats.find? (fun x => x.id == c.id && x.users.contains u) = none := by
    rw [List.find?_eq_none]
    intro z hz
    by_cases hid : z.id = c.id
    · have hzc : z = c := key_inj_of_nodup hcnd hc hz hid
      rw [hzc]
      simp [hnuser2]
    · simp [hid]
  refine ⟨?_, ?_, ?_⟩
  · have hsome : (db.chats.find? (fun x => x.id == c.id &&
        (x.users.contains u || x.groupAdmins.contains u))).isSome := by
      rw [List.find?_isSome]
      exact ⟨c, hc, by simp [hadm2]⟩
    obtain ⟨cc, hcc⟩ := Option.isSome_iff_exists.mp hsome
    simp only [getAllMessages, hcc]
    rw [if_neg (by simp [hv])]
    rfl
  · intro content nid t
    simp only [sendMessage]
    rw [if_neg (by simp [hv])]
    by_cases hct : (content == "") = true
    · rw [if_pos hct]
      rfl
    · rw [if_neg hct, hnone]
      rfl
  · intro m hm hchat
    by_cases hvm : isValidObjectId m.id = true
    · by_cases hru : u ∈ m.readBy
      · have hmn : db.messages.find?
            (fun x => x.id == m.id && !(x.readBy.contains u)) = none := by
          rw [List.find?_eq_none]
          intro z hz
          by_cases hid : z.id = m.id
          · have hzm : z = m := key_inj_of_nodup hmnd hm hz hid
            rw [hzm]
            simp [hru]
          · simp [hid]
        simp only [updateReadBy, hmn]
        rw [if_neg (by simp [hvm])]
        rfl
      · have hms : db.messages.find?
            (fun x => x.id == m.id && !(x.readBy.contains u)) = some m := by
          apply find_eq_some_of_nodup hmnd hm
          · simp [hru]
          · intro y hy
            rw [Bool.and_eq_true] at hy
            exact (beq_iff_eq.mp hy.1 :)
        have hcn : db.chats.find?
            (fun x => x.id == m.chat && x.users.contains u) = none := by
          rw [hchat]
          exact hnone
        simp only [updateReadBy, hms, hcn]
        rw [if_neg (by simp [hvm])]
        rfl
    · have hvm2 : isValidObjectId m.id = false := by simpa using hvm
      simp only [updateReadBy]
      rw [if_pos (by simp [hvm2])]
      rfl

/-- The C8 witness store: `uidA` administers group chat `cid1` but is not in
its `users` array; `uidB` is the only member; one message by `uidB`. -/
def c8chat : Chat :=
  { id := cid1, chatName := "Team", isGroupChat := true,
    groupAdmins := [uidA], users := [uidB] }

def c8db : DB :=
  { users := [uidA, uidB], chats := [c8chat],
    messages := [{ id := mid1, content := "hey", chat := cid1, sender := uidB }] }

/-- Witness for C8 at the concrete store. -/
theorem admin_not_in_users_witness :
    isOk (getAllMessages c8db uidA c8chat.id) = true
    ∧ (∀ content nid t, isOk (sendMessage c8db uidA c8chat.id content nid t) = false)
    ∧ (∀ m ∈ c8db.messages, m.chat = c8chat.id →
        isOk (updateReadBy c8db uidA m.id) = false) :=
  admin_not_in_users_can_list_not_send c8db c8chat uidA
    (by decide) (by decide) (by decide) (by decide) (by decide) (by decide)

/-! ## C9: replaceMembers overwrites verbatim without resolving ids -/

/-- C9: `updateGroupUsers` (PUT /chats/group/users) accepts any non-empty,
distinct list of well-formed 24-hex ids from an admin requester and
overwrites the chat's `users` with it verbatim: no hypothesis requires the
listed ids to be registered users, nor the requester or any admin to occur
in the new array; `groupAdmins` and the rest of the store are untouched. -/
theorem updateGroupUsers_overwrites_verbatim
    (db : DB) (c : Chat) (r : String) (usersInput : List String) (t : Nat)
    (hc : c ∈ db.chats) (hcnd : (db.chats.map Chat.id).Nodup)
    (hg : c.isGroupChat = true)
    (hadm : c.groupAdmins.contains r = true)
    (hv : isValidObjectId c.id = true)
    (hvu : usersInput.all isValidObjectId = true)
    (hne : ¬ usersInput = [])
    (hdis : distinctList usersInput = true) :
    ∃ db2, updateGroupUsers db r c.id usersInput t =
        .ok (db2, some { c with users := usersInput, updatedAt := t }) ∧
      db2.users = db.users ∧ db2.messages = db.messages := by
  have hlen : ¬ (usersInput.length < 1) := by
    cases usersInput with
    | nil => exact absurd rfl hne
    | cons a l => simp
  have hfind : db.chats.find? (fun x => x.id == c.id && x.isGroupChat) = some c := by
    apply find_eq_some_of_nodup hcnd hc
    · simp [hg]
    · intro y hy
      rw [Bool.and_eq_true] at hy
      exact (beq_iff_eq.mp hy.1 :)
  have hsnd := updateFirstBy_snd
    (fun x : Chat => { x with users := usersInput, updatedAt := t }) hcnd hc
  refine ⟨{ db with chats := (updateFirstBy Chat.id
      (fun x => { x with users := usersInput, updatedAt := t }) c.id db.chats).1 },
    ?_, rfl, rfl⟩
  simp only [updateGroupUsers, hv, hvu, hdis, Bool.not_true, Bool.false_eq_true,
    if_false, hlen, if_neg, hfind, hadm]
  rw [hsnd]

/-- The C9 witness store: only `uidA` is a registered user; `uidA`
administers group chat `cid1` whose members are `[uidA, uidB]`. -/
def c9chat : Chat :=
  { id := cid1, chatName := "Team", isGroupChat := true,
    groupAdmins := [uidA], users := [uidA, uidB] }

def c9db : DB := { users := [uidA], chats := [c9chat], messages := [] }

/-- Witness for C9 at the concrete store: the replacement list
`[uidC, uidD]` contains no registered user (the users collection is
`[uidA]`) and contains no admin of the chat, yet the call succeeds and the
chat's `users` becomes `[uidC, uidD]` verbatim. -/
theorem updateGroupUsers_overwrites_witness :
    ∃ db2, updateGroupUsers c9db uidA c9chat.id [uidC, uidD] 9 =
        .ok (db2, some { c9chat with users := [uidC, uidD], updatedAt := 9 }) ∧
      db2.users = c9db.users ∧ db2.messages = c9db.messages :=
  updateGroupUsers_overwrites_verbatim c9db c9chat uidA [uidC, uidD] 9
    (by decide) (by decide) (by decide) (by decide) (by decide) (by decide)
    (by decide) (by decide)

/-! ## C10: socket fan-out emits twice to a member who is also admin -/

/-- C10: when a recipient `r` occurs once in the chat's `users` and once in
its `groupAdmins` and is not the sender, the `sendMessage` relay handler
emits `receiveMessage` to `r`'s channel exactly twice, because it iterates
the concatenation of the two arrays without de-duplication. -/
theorem socket_sendMessage_emits_twice
    (users admins : List String) (r sender : String)
    (hu : users.count r = 1) (ha : admins.count r = 1) (hrs : ¬ r = sender) :
    (socketSendMessageTargets users admins sender).count r = 2 := by
  simp only [socketSendMessageTargets]
  rw [List.count_filter (by simp [hrs]), List.count_append, hu, ha]

/-- Witness for C10 at a concrete chat: `uidA` is both member and admin,
`uidB` the sender, and `uidA`'s channel receives the event twice. -/
theorem socket_sendMessage_emits_twice_witness :
    (socketSendMessageTargets [uidB, uidA] [uidA] uidB).count uidA = 2 :=
  socket_sendMessage_emits_twice [uidB, uidA] [uidA] uidA uidB
    (by decide) (by decide) (by decide)

end ChatApp
